import Mathlib

/-!
Verification of the yle-dl backend layer (yledl/backends.py) against its
natural-language specification.  The Python module is shallowly embedded:
pure helpers become Lean functions, filesystem state becomes an explicit
record of existing paths, and the outcome of external OS processes becomes
an explicit oracle value, so that every code path of the embedded functions
mirrors a code path of the source.
-/

namespace Yledl

/-- Modelled from the spec: the result codes imported from yledl/exitcodes.py
(RD_SUCCESS, RD_FAILED, RD_INCOMPLETE, RD_SUBPROCESS_EXECUTE_FAILED), a file
that is not part of the sources at hand.  The spec describes them as four
distinct terminal result values, so they are modelled as the constructors of
an enumeration. -/
inductive RD where
  | success
  | failed
  | incomplete
  | subprocessExecuteFailed
deriving DecidableEq, Repr

/-- The IOCapability constants of backends.py (lines 24-28). -/
inductive IOCapability where
  | resume
  | proxy
  | ratelimit
  | duration
deriving DecidableEq, Repr

/-- The download_limits member of the io object consumed by backends.py.
Python integers that are only ever compared for truthiness and printed are
modelled as Option Nat, where none stands for Python None. -/
structure DownloadLimits where
  ratelimit : Option Nat
  duration : Option Nat
deriving DecidableEq, Repr

/-- The io object consumed by backends.py (outputfilename, destdir, resume,
excludechars, proxy, download_limits and the tool binaries). -/
structure IOContext where
  outputfilename : Option String
  destdir : Option String
  resume : Bool
  excludechars : String
  proxy : Option String
  download_limits : DownloadLimits
  rtmpdump_binary : String
  hds_binary : List String
  ffmpeg_binary : String
  wget_binary : String
deriving DecidableEq, Repr

/-- Python truthiness of an optional string: None and the empty string are
falsy. -/
def optStrTruthy : Option String → Bool
  | none => false
  | some s => !(s == "")

/-- Python truthiness of an optional integer: None and 0 are falsy. -/
def optNatTruthy : Option Nat → Bool
  | none => false
  | some n => !(n == 0)

/-- Severity of a log record: backends.py emits warnings via logger.warn or
logger.warning and errors via logger.error. -/
inductive LogLevel where
  | warning
  | error
deriving DecidableEq, Repr

/-- One log record emitted by the embedded code. -/
structure LogMsg where
  level : LogLevel
  text : String
deriving DecidableEq, Repr

/-! ### Filesystem model

The filesystem state visible to backends.py through os.path.exists,
os.path.isfile, os.path.getsize and os.listdir is modelled as a finite
record: the regular files with their sizes, the other existing paths
(directories), and the listing of the current working directory. -/

structure FS where
  files : List (String × Nat)
  dirs : List String
  cwdListing : List String
deriving DecidableEq, Repr

/-- All existing paths (regular files and directories). -/
def FS.allPaths (fs : FS) : List String :=
  fs.files.map Prod.fst ++ fs.dirs

/-- Model of os.path.exists.  backends.py line 79 applies it to
filename.encode(enc, replace); the encoding round trip is modelled as the
identity on the path string. -/
def FS.pathExists (fs : FS) (p : String) : Bool :=
  decide (p ∈ fs.allPaths)

/-- Model of os.path.isfile: true exactly for the regular files. -/
def FS.isfile (fs : FS) (p : String) : Bool :=
  decide (p ∈ fs.files.map Prod.fst)

/-- Model of os.path.getsize: the size of a regular file, none when the call
raises OSError (no such path). -/
def FS.getsize (fs : FS) (p : String) : Option Nat :=
  (fs.files.find? (fun e => e.1 == p)).map Prod.snd

/-- The ambient execution environment of a backend: the filesystem, the
sane_filename collaborator from yledl/utils.py (an external collaborator per
the spec, taken as an arbitrary function of the title and excludechars), the
debug flag of the logger, and the result the Subprocess layer reports for an
external command chain. -/
structure Env where
  fs : FS
  sane_filename : String → String → String
  debugEnabled : Bool
  extResult : RD

/-! ### Decimal rendering of naturals (Python str on a non-negative int) -/

/-- One decimal digit character; arguments are always below ten. -/
def decDigitChar : Nat → Char
  | 0 => '0'
  | 1 => '1'
  | 2 => '2'
  | 3 => '3'
  | 4 => '4'
  | 5 => '5'
  | 6 => '6'
  | 7 => '7'
  | 8 => '8'
  | _ => '9'

/-- Fuel-indexed decimal rendering; the fuel only needs to exceed the number
being rendered. -/
def toDecimalAux : Nat → Nat → List Char
  | 0, _ => []
  | fuel + 1, n =>
    if n < 10 then [decDigitChar n]
    else toDecimalAux fuel (n / 10) ++ [decDigitChar (n % 10)]

/-- Model of Python str applied to a non-negative integer. -/
def natDecStr (n : Nat) : String :=
  String.mk (toDecimalAux (n + 1) n)

/-! ### Path helpers (os.path.splitext, os.path.join) -/

/-- Index of the last occurrence of a character, -1 when absent (the Python
str.rfind convention used by posixpath.splitext). -/
def lastIndexOfAux : List Char → Char → Nat → Int → Int
  | [], _, _, best => best
  | ch :: rest, c, i, best =>
    lastIndexOfAux rest c (i + 1) (if ch = c then Int.ofNat i else best)

/-- Index of the last occurrence of a character in a string, -1 when absent. -/
def lastIndexOf (cs : List Char) (c : Char) : Int :=
  lastIndexOfAux cs c 0 (-1)

/-- Model of os.path.splitext (posixpath): split off the extension at the
last dot, unless every character between the last path separator and that
dot is itself a dot (leading-dot filenames keep their dots). -/
def splitext (p : String) : String × String :=
  let cs := p.data
  let sepIndex := lastIndexOf cs '/'
  let dotIndex := lastIndexOf cs '.'
  if dotIndex > sepIndex then
    let start := (sepIndex + 1).toNat
    let dotN := dotIndex.toNat
    if (List.range (dotN - start)).any (fun k => cs.get? (start + k) != some '.') then
      (String.mk (cs.take dotN), String.mk (cs.drop dotN))
    else (p, "")
  else (p, "")

/-- Model of os.path.join (posixpath) for two components. -/
def path_join (a b : String) : String :=
  if b.startsWith "/" then b
  else if a = "" ∨ a.endsWith "/" then a ++ b
  else a ++ "/" ++ b

/-! ### BaseDownloader helpers (backends.py lines 34-120) -/

/-- warn_on_unsupported_feature (lines 40-51): one warning per requested but
unsupported option, in source order.  All four log calls are warnings (via
logger.warn or logger.warning); none is an error. -/
def warn_on_unsupported_feature (caps : Finset IOCapability) (io : IOContext) :
    List LogMsg :=
  (if io.resume = true ∧ IOCapability.resume ∉ caps then
    [⟨LogLevel.warning, "Resume not supported on this stream"⟩] else [])
  ++ (if optStrTruthy io.proxy = true ∧ IOCapability.proxy ∉ caps then
    [⟨LogLevel.warning, "Proxy not supported on this stream. Trying to continue anyway"⟩] else [])
  ++ (if optNatTruthy io.download_limits.ratelimit = true ∧ IOCapability.ratelimit ∉ caps then
    [⟨LogLevel.warning, "Rate limiting not supported on this stream"⟩] else [])
  ++ (if optNatTruthy io.download_limits.duration = true ∧ IOCapability.duration ∉ caps then
    [⟨LogLevel.warning, "--duration will be ignored on this stream"⟩] else [])

/-- append_ext_if_missing (lines 86-90): append default_ext (or the literal
.flv when default_ext is falsy) exactly when the filename contains no dot. -/
def append_ext_if_missing (filename : String) (default_ext : String) : String :=
  if '.' ∈ filename.data then filename
  else filename ++ (if default_ext = "" then ".flv" else default_ext)

/-- replace_extension (lines 92-99): force the given extension, replacing a
different existing one. -/
def replace_extension (filename : String) (ext : String) : String :=
  let r := splitext filename
  if r.2 = "" ∨ r.2 ≠ ext then r.1 ++ ext else filename

/-- The candidate sequence tried by next_available_filename, expressed over
the basename and extension of the proposed name: candidate 0 is the proposed
name itself, candidate (i+1) is basename-(i+1)ext. -/
def candBE (basename ext : String) : Nat → String
  | 0 => basename ++ ext
  | i + 1 => basename ++ "-" ++ natDecStr (i + 1) ++ ext

/-- The while loop of next_available_filename (lines 79-84), fuel-indexed:
the state is the current trial filename and the next suffix number.  The
fuel supplied by next_available_filename exceeds the number of existing
paths, so exhaustion is unreachable. -/
def next_avail_loop (fs : FS) (basename ext : String) :
    String → Nat → Nat → String
  | filename, _, 0 => filename
  | filename, i, fuel + 1 =>
    if fs.pathExists filename then
      next_avail_loop fs basename ext (basename ++ "-" ++ natDecStr i ++ ext) (i + 1) fuel
    else filename

/-- next_available_filename (lines 74-84): starting from the proposed name,
try basename-1ext, basename-2ext, ... until a non-existing path is found. -/
def next_available_filename (fs : FS) (proposed : String) : String :=
  let r := splitext proposed
  next_avail_loop fs r.1 r.2 proposed 1 (fs.allPaths.length + 2)

/-- The pre-collision filename built by outputfile_from_clip_title
(lines 65-68): sanitized title plus effective extension, joined with the
destination directory when one is set. -/
def proposed_filename (env : Env) (ext : String) (clip_title : String)
    (io : IOContext) : String :=
  let e := if ext = "" then ".flv" else ext
  let filename := env.sane_filename clip_title io.excludechars ++ e
  match io.destdir with
  | some d => if d = "" then filename else path_join d filename
  | none => filename

/-- outputfile_from_clip_title (lines 61-72).  The instance attribute
_cached_output_file is threaded explicitly: the function returns the
resolved path together with the cache after the call.  A truthy cache short
circuits everything else. -/
def outputfile_from_clip_title (env : Env) (ext : String) (cache : Option String)
    (clip_title : String) (io : IOContext) (resume : Bool) :
    String × Option String :=
  if optStrTruthy cache then (cache.getD "", cache)
  else
    let p := proposed_filename env ext clip_title io
    let filename := if resume then p else next_available_filename env.fs p
    (filename, some filename)

/-- _construct_output_filename (lines 111-120): a truthy explicit user
filename takes precedence (with the extension forced or appended according
to force_extension); otherwise the name is derived from the clip title, with
collision avoidance suppressed exactly for a resume on a backend whose
capability set contains RESUME. -/
def construct_output_filename (env : Env) (ext : String)
    (caps : Finset IOCapability) (cache : Option String) (clip_title : String)
    (io : IOContext) (force_extension : Bool) : String × Option String :=
  if optStrTruthy io.outputfilename then
    let ofn := io.outputfilename.getD ""
    (if force_extension then replace_extension ofn ext
     else append_ext_if_missing ofn ext, cache)
  else
    let resume_job := io.resume && decide (IOCapability.resume ∈ caps)
    outputfile_from_clip_title env ext cache clip_title io resume_job

/-! ### Subprocess (backends.py lines 172-238)

The chain of OS processes is started by start_process, which returns
processes[0]; execute then waits on that head process and translates its
exit code.  The nondeterministic interaction with the operating system is
captured by an oracle: either some Popen call raises OSError, or the wait is
interrupted by KeyboardInterrupt (after which the os.kill of the head
process may itself raise OSError, which is swallowed), or the chain runs to
completion and every process has an exit code, of which execute consults the
head one. -/

inductive RunEvent where
  | spawnError
  | interrupted (killFails : Bool)
  | completed (exits : List Int)

/-- Observable steps taken by Subprocess.execute. -/
inductive ExecAction where
  | spawnedAll
  | sentSigintHead
  | waitedHead
  | loggedError
deriving DecidableEq, Repr

/-- exit_code_to_rd (lines 237-238). -/
def exit_code_to_rd (exit_code : Int) : RD :=
  if exit_code = 0 then RD.success else RD.failed

/-- Subprocess.execute (lines 173-204).  An empty command list returns
success immediately; otherwise the outcome follows the oracle: an OSError
while spawning is caught, logged and reported as subprocessExecuteFailed; a
KeyboardInterrupt during the wait sends SIGINT to the head process and then
waits for it unless the kill itself raises OSError, returning incomplete
either way; a completed run reports the translation of the exit code of the
head process (start_process returns processes[0], line 235). -/
def Subprocess.execute (ev : RunEvent) (commands : List (List String)) :
    RD × List ExecAction :=
  match commands with
  | [] => (RD.success, [])
  | _ :: _ =>
    match ev with
    | RunEvent.spawnError => (RD.subprocessExecuteFailed, [ExecAction.loggedError])
    | RunEvent.interrupted killFails =>
      (RD.incomplete,
        [ExecAction.spawnedAll, ExecAction.sentSigintHead]
          ++ (if killFails then [] else [ExecAction.waitedHead]))
    | RunEvent.completed exits =>
      (exit_code_to_rd (exits.headD 0), [ExecAction.spawnedAll, ExecAction.waitedHead])

/-! ### Backends registry (backends.py lines 585-614) -/

/-- Backends.default_order (lines 592-598). -/
def default_order : List String :=
  ["wget", "ffmpeg", "adobehdsphp", "youtubedl", "rtmpdump"]

/-- Backends.is_valid_backend (lines 600-602). -/
def is_valid_backend (backend_name : String) : Bool :=
  decide (backend_name ∈ default_order)

/-- The accumulator loop of Backends.parse_backends (lines 604-614). -/
def parse_backends_loop (acc : List String) : List String → List String
  | [] => acc
  | bn :: rest =>
    if is_valid_backend bn = false then parse_backends_loop acc rest
    else if bn ∈ acc then parse_backends_loop acc rest
    else parse_backends_loop (acc ++ [bn]) rest

/-- Backends.parse_backends (lines 604-614): keep the valid names, first
occurrence first, skipping duplicates (a warning is logged per invalid name
and the loop continues; nothing is raised). -/
def parse_backends (backend_names : List String) : List String :=
  parse_backends_loop [] backend_names

/-- Reference form of first-occurrence duplicate removal, used to state what
parse_backends computes. -/
def dedupFirst : List String → List String
  | [] => []
  | x :: xs => x :: dedupFirst (xs.filter (fun y => y != x))
termination_by l => l.length
decreasing_by
  simp only [List.length_cons]
  exact Nat.lt_succ_of_le (List.length_filter_le _ _)

/-! ### Effects of a backend save_stream call -/

/-- Observable filesystem and process effects of a save_stream call, in
order of occurrence. -/
inductive Action where
  | removeFile (path : String)
  | execExternal (commands : List (List String))
deriving DecidableEq, Repr

/-! ### HDSBackend (backends.py lines 308-386) -/

structure HDSBackend where
  url : String
  bitrate : Option Nat
  flavor_id : String
  ext : String
deriving DecidableEq, Repr

/-- The capability frozenset of HDSBackend (lines 314-319). -/
def hdsCaps : Finset IOCapability :=
  {IOCapability.resume, IOCapability.proxy, IOCapability.duration, IOCapability.ratelimit}

/-- _bitrate_option (lines 322-323). -/
def hds_bitrate_option (bitrate : Option Nat) : List String :=
  if optNatTruthy bitrate then ["--quality", natDecStr (bitrate.getD 0)] else []

/-- _limit_options (lines 325-334). -/
def hds_limit_options (dl : DownloadLimits) : List String :=
  (if optNatTruthy dl.ratelimit then ["--maxspeed", natDecStr (dl.ratelimit.getD 0)] else [])
  ++ (if optNatTruthy dl.duration then ["--duration", natDecStr (dl.duration.getD 0)] else [])

/-- adobehds_command_line (lines 366-380). -/
def adobehds_command_line (env : Env) (b : HDSBackend) (io : IOContext)
    (extra_args : List String) : List String :=
  io.hds_binary
  ++ ["--manifest", b.url]
  ++ hds_bitrate_option b.bitrate
  ++ hds_limit_options io.download_limits
  ++ (if optStrTruthy io.proxy then ["--proxy", io.proxy.getD "", "--fproxy"] else [])
  ++ (if env.debugEnabled then ["--debug"] else [])
  ++ (if extra_args = [] then [] else extra_args)

/-- HDSBackend output filename: the base output_filename (lines 108-109),
which forces the extension. -/
def HDSBackend.output_filename (env : Env) (b : HDSBackend) (cache : Option String)
    (clip_title : String) (io : IOContext) : String × Option String :=
  construct_output_filename env b.ext hdsCaps cache clip_title io true

/-- HDSBackend.build_args (lines 336-341). -/
def HDSBackend.build_args (env : Env) (b : HDSBackend) (cache : Option String)
    (clip_title : String) (io : IOContext) : List String × Option String :=
  let r := HDSBackend.output_filename env b cache clip_title io
  (adobehds_command_line env b io ["--delete", "--outfile", r.1], r.2)

/-- Character code 10, the newline excluded by an unescaped dot in a Python
regular expression. -/
def newlineChar : Char := Char.ofNat 10

/-- Strip digits from the front of a list, returning how many were stripped
and the remainder. -/
def dropDigitsCount : List Char → Nat × List Char
  | [] => (0, [])
  | c :: rest =>
    if c.isDigit then
      let r := dropDigitsCount rest
      (r.1 + 1, r.2)
    else (0, c :: rest)

/-- Whether a directory entry matches the fragment pattern of
fragments_exist (line 354), the anchored regular expression
dot-star underscore flavor underscore Seg digits dash Frag digits end.
Matching is decided from the end of the name: a dollar anchor also matches
just before one trailing newline; the digit runs must be non-empty; the
leading dot-star cannot cross a newline. -/
def fragSuffixMatch (flavor_id : String) (x : String) : Bool :=
  let r0 := x.data.reverse
  let r := match r0 with
    | c :: rest => if c = newlineChar then rest else r0
    | [] => r0
  let d2 := dropDigitsCount r
  if d2.1 = 0 then false
  else if d2.2.take 5 = ("garF-").data then
    let d1 := dropDigitsCount (d2.2.drop 5)
    if d1.1 = 0 then false
    else
      let tail := ("geS_").data ++ flavor_id.data.reverse ++ ['_']
      if d1.2.take tail.length = tail then
        (d1.2.drop tail.length).all (fun c => c != newlineChar)
      else false
  else false

/-- fragments_exist (lines 353-356): some entry of the working directory
listing matches the flavor-specific fragment pattern. -/
def fragments_exist (fs : FS) (flavor_id : String) : Bool :=
  fs.cwdListing.any (fragSuffixMatch flavor_id)

/-- HDSBackend.save_stream (lines 343-351): when resuming, the output name
is not the stdout marker, the output file exists and no fragment files
remain, report success without touching the external tool; otherwise fall
through to ExternalDownloader.save_stream (lines 127-135), which builds the
argument vector and runs the external downloader, reporting its result. -/
def HDSBackend.save_stream (env : Env) (b : HDSBackend) (cache : Option String)
    (clip_title : String) (io : IOContext) : RD × List Action × Option String :=
  let r0 := HDSBackend.output_filename env b cache clip_title io
  if io.resume = true ∧ r0.1 ≠ "-" ∧ env.fs.isfile r0.1 = true ∧
      fragments_exist env.fs b.flavor_id = false then
    (RD.success, [], r0.2)
  else
    let r1 := HDSBackend.build_args env b r0.2 clip_title io
    let r2 := HDSBackend.output_filename env b r1.2 clip_title io
    (env.extResult, [Action.execExternal [r1.1]], r2.2)

/-! ### RTMPBackend (backends.py lines 256-302) -/

structure RTMPBackend where
  args : List String
deriving DecidableEq, Repr

/-- The capability frozenset of RTMPBackend (lines 260-263). -/
def rtmpCaps : Finset IOCapability :=
  {IOCapability.resume, IOCapability.duration}

/-- RTMPBackend output filename: the base output_filename with the fixed
flv extension of the backend (line 258). -/
def RTMPBackend.output_filename (env : Env) (cache : Option String)
    (clip_title : String) (io : IOContext) : String × Option String :=
  construct_output_filename env ".flv" rtmpCaps cache clip_title io true

/-- is_small_file (lines 292-296): size below 1024, false when getsize
raises OSError. -/
def is_small_file (fs : FS) (filename : String) : Bool :=
  match fs.getsize filename with
  | some n => decide (n < 1024)
  | none => false

/-- RTMPBackend.build_args (lines 276-284). -/
def RTMPBackend.build_args (env : Env) (b : RTMPBackend) (cache : Option String)
    (clip_title : String) (io : IOContext) : List String × Option String :=
  let r := RTMPBackend.output_filename env cache clip_title io
  ([io.rtmpdump_binary] ++ b.args ++ ["-o", r.1]
    ++ (if io.resume then ["-e"] else [])
    ++ (if optNatTruthy io.download_limits.duration then
          ["--stop", natDecStr (io.download_limits.duration.getD 0)] else []),
   r.2)

/-- RTMPBackend.save_stream (lines 266-274): on a resume against a small
(under 1024 bytes) existing output file, remove that file first (os.remove
failures being swallowed, lines 298-302), then run
ExternalDownloader.save_stream, whose result is the external result
unchanged. -/
def RTMPBackend.save_stream (env : Env) (b : RTMPBackend) (cache : Option String)
    (clip_title : String) (io : IOContext) : RD × List Action × Option String :=
  let r0 := RTMPBackend.output_filename env cache clip_title io
  let removeActs :=
    if io.resume = true ∧ is_small_file env.fs r0.1 = true then
      [Action.removeFile r0.1]
    else []
  let r1 := RTMPBackend.build_args env b r0.2 clip_title io
  let r2 := RTMPBackend.output_filename env r1.2 clip_title io
  (env.extResult, removeActs ++ [Action.execExternal [r1.1]], r2.2)

/-! ### HLSBackend (backends.py lines 459-520) -/

structure HLSBackend where
  url : String
  ext : String
  long_probe : Bool
deriving DecidableEq, Repr

/-- The capability frozenset of HLSBackend (line 464). -/
def hlsCaps : Finset IOCapability := {IOCapability.duration}

/-- HLSBackend.output_filename (lines 467-468): the shared resolution with
force_extension false, so the extension is only appended, never forced. -/
def HLSBackend.output_filename (env : Env) (b : HLSBackend) (cache : Option String)
    (clip_title : String) (io : IOContext) : String × Option String :=
  construct_output_filename env b.ext hlsCaps cache clip_title io false

/-! ### Auxiliary definitions used by the statements and proofs -/

/-- Decimal value of a digit string, the left inverse of natDecStr. -/
def decVal (l : List Char) : Nat :=
  l.foldl (fun a c => 10 * a + (c.toNat - 48)) 0

/-- The candidate sequence of next_available_filename for a proposed name:
the proposed name itself, then basename-1ext, basename-2ext, and so on. -/
def candSeq (proposed : String) (k : Nat) : String :=
  candBE (splitext proposed).1 (splitext proposed).2 k

/-! ### Concrete sample data for the witness theorems -/

/-- A filesystem on which the proposed clip name and its first alternative
are both taken. -/
def fsTaken : FS := ⟨[("t.flv", 1), ("t-1.flv", 2)], [], []⟩

/-- A filesystem holding only a complete 1000 byte output file. -/
def fsOut : FS := ⟨[("out.mp4", 1000)], [], ["notes.txt"]⟩

/-- A filesystem holding only a truncated 500 byte flv file. -/
def fsSmall : FS := ⟨[("t.flv", 500)], [], []⟩

/-- Environment over fsTaken with a transparent sanitizer and a failing
external tool. -/
def envTaken : Env := ⟨fsTaken, fun t _ => t, false, RD.failed⟩

/-- Environment over fsOut with a transparent sanitizer and a failing
external tool. -/
def envOut : Env := ⟨fsOut, fun t _ => t, false, RD.failed⟩

/-- Environment over fsSmall with a transparent sanitizer and a succeeding
external tool. -/
def envSmall : Env := ⟨fsSmall, fun t _ => t, false, RD.success⟩

/-- An io object with no explicit output name and no resume. -/
def ioPlain : IOContext :=
  ⟨none, none, false, "*/|", none, ⟨none, none⟩, "rtmpdump", ["php", "AdobeHDS.php"], "ffmpeg", "wget"⟩

/-- An io object with no explicit output name, with resume requested. -/
def ioResume : IOContext :=
  ⟨none, none, true, "*/|", none, ⟨none, none⟩, "rtmpdump", ["php", "AdobeHDS.php"], "ffmpeg", "wget"⟩

/-- An io object naming the output file explicitly, without resume. -/
def ioExplicitOut : IOContext :=
  ⟨some "out.mp4", none, false, "*/|", none, ⟨none, none⟩, "rtmpdump", ["php", "AdobeHDS.php"], "ffmpeg", "wget"⟩

/-- An io object naming the output file explicitly, with resume requested. -/
def ioExplicitOutResume : IOContext :=
  ⟨some "out.mp4", none, true, "*/|", none, ⟨none, none⟩, "rtmpdump", ["php", "AdobeHDS.php"], "ffmpeg", "wget"⟩

/-- An io object whose explicit output name carries a foreign extension. -/
def ioDotName : IOContext :=
  ⟨some "movie.mkv", none, false, "*/|", none, ⟨none, none⟩, "rtmpdump", ["php", "AdobeHDS.php"], "ffmpeg", "wget"⟩

/-- An io object whose explicit output name has no dot at all. -/
def ioPlainName : IOContext :=
  ⟨some "audio", none, false, "*/|", none, ⟨none, none⟩, "rtmpdump", ["php", "AdobeHDS.php"], "ffmpeg", "wget"⟩

/-- A sample fragmented-HTTP backend instance. -/
def hdsSample : HDSBackend := ⟨"http://example/manifest.f4m", none, "fl7", ".mp4"⟩

/-- A sample segmented-download backend instance. -/
def rtmpSample : RTMPBackend := ⟨["-r", "rtmp://example/x"]⟩

/-- A sample segment-playlist backend instance with an mp4 extension. -/
def hlsSample : HLSBackend := ⟨"http://example/playlist.m3u8", ".mp4", false⟩

/-- A sample segment-playlist backend instance declaring no extension. -/
def hlsNoExt : HLSBackend := ⟨"http://example/playlist.m3u8", "", false⟩

/-! ## Theorems -/

/-! ### Helper lemmas about dedupFirst and parse_backends -/

theorem dedupFirst_cons (x : String) (xs : List String) :
    dedupFirst (x :: xs) = x :: dedupFirst (xs.filter (fun y => y != x)) := by
  simp [dedupFirst]

theorem mem_dedupFirst (a : String) : ∀ l : List String, a ∈ dedupFirst l ↔ a ∈ l := by
  intro l
  induction l using dedupFirst.induct with
  | case1 => simp [dedupFirst]
  | case2 x xs ih =>
    rw [dedupFirst_cons]
    by_cases hax : a = x
    · subst hax; simp
    · simp [hax, ih, List.mem_filter]

theorem nodup_dedupFirst : ∀ l : List String, (dedupFirst l).Nodup := by
  intro l
  induction l using dedupFirst.induct with
  | case1 => simp [dedupFirst]
  | case2 x xs ih =>
    rw [dedupFirst_cons]
    refine List.nodup_cons.mpr ⟨?_, ih⟩
    intro hx
    have hm := (mem_dedupFirst x _).mp hx
    simp [List.mem_filter] at hm

theorem dedupFirst_eq_self : ∀ l : List String, l.Nodup → dedupFirst l = l := by
  intro l
  induction l using dedupFirst.induct with
  | case1 => intro _; simp [dedupFirst]
  | case2 x xs ih =>
    intro hnd
    rw [dedupFirst_cons]
    have hx : x ∉ xs := (List.nodup_cons.mp hnd).1
    have hfix : xs.filter (fun y => y != x) = xs := by
      apply List.filter_eq_self.mpr
      intro a ha
      simp only [bne_iff_ne, ne_eq, decide_eq_true_eq]
      intro h
      exact hx (h ▸ ha)
    rw [hfix] at ih ⊢
    rw [ih (List.nodup_cons.mp hnd).2]

theorem filter_not_mem_append_singleton (l acc : List String) (bn : String) :
    l.filter (fun b => decide (b ∉ acc ++ [bn]))
      = (l.filter (fun b => decide (b ∉ acc))).filter (fun y => y != bn) := by
  rw [List.filter_filter]
  apply List.filter_congr
  intro a _
  by_cases h1 : a ∈ acc <;> by_cases h2 : a = bn <;>
    simp [h1, h2, List.mem_append]

theorem parse_backends_loop_spec : ∀ (xs acc : List String),
    parse_backends_loop acc xs
      = acc ++ dedupFirst
          ((xs.filter (fun b => is_valid_backend b)).filter (fun b => decide (b ∉ acc))) := by
  intro xs
  induction xs with
  | nil => intro acc; simp [parse_backends_loop, dedupFirst]
  | cons bn rest ih =>
    intro acc
    cases hv : is_valid_backend bn with
    | false =>
      simp only [parse_backends_loop, hv, if_pos]
      rw [ih acc]
      simp [List.filter_cons, hv]
    | true =>
      by_cases hm : bn ∈ acc
      · simp only [parse_backends_loop, hv, if_neg, if_pos, hm, Bool.true_eq_false,
          if_false, if_true]
        rw [ih acc]
        simp [List.filter_cons, hv, hm]
      · simp only [parse_backends_loop, hv, hm, Bool.true_eq_false, if_false]
        rw [ih (acc ++ [bn])]
        rw [filter_not_mem_append_singleton]
        have hbn : decide (bn ∉ acc) = true := by simp [hm]
        rw [List.filter_cons, if_pos hv, List.filter_cons, if_pos hbn]
        rw [dedupFirst_cons]
        simp [List.append_assoc]

theorem parse_backends_eq (xs : List String) :
    parse_backends xs = dedupFirst (xs.filter (fun b => is_valid_backend b)) := by
  have h := parse_backends_loop_spec xs []
  simpa using h

theorem mem_parse_backends (xs : List String) (b : String) :
    b ∈ parse_backends xs ↔ (b ∈ xs ∧ is_valid_backend b = true) := by
  rw [parse_backends_eq, mem_dedupFirst, List.mem_filter]

theorem parse_backends_nodup (xs : List String) : (parse_backends xs).Nodup := by
  rw [parse_backends_eq]
  exact nodup_dedupFirst _

/-- C4: parse_backends keeps exactly the valid backend identifiers, in
first-occurrence order with duplicates removed (this is what dedupFirst of
the valid-name filtering computes); membership is equivalent to being a
valid member of the input; the output has no duplicates; the function is
idempotent; and on the concrete input of the claim it returns the expected
list.  As a total Lean function it never raises. -/
theorem claim4_parse_backends :
    (∀ xs : List String, parse_backends xs = dedupFirst (xs.filter (fun b => is_valid_backend b)))
    ∧ (∀ (xs : List String) (b : String),
        b ∈ parse_backends xs ↔ (b ∈ xs ∧ is_valid_backend b = true))
    ∧ (∀ xs : List String, (parse_backends xs).Nodup)
    ∧ (∀ xs : List String, parse_backends (parse_backends xs) = parse_backends xs)
    ∧ parse_backends ["wget", "bogus", "ffmpeg", "wget"] = ["wget", "ffmpeg"] := by
  refine ⟨parse_backends_eq, mem_parse_backends, parse_backends_nodup, ?_, by decide⟩
  intro xs
  rw [parse_backends_eq (parse_backends xs)]
  have hval : (parse_backends xs).filter (fun b => is_valid_backend b) = parse_backends xs := by
    apply List.filter_eq_self.mpr
    intro a ha
    exact ((mem_parse_backends xs a).mp ha).2
  rw [hval]
  exact dedupFirst_eq_self _ (parse_backends_nodup xs)

/-! ### Helper lemmas about decimal rendering and the collision loop -/

theorem decDigitChar_toNat (d : Nat) (hd : d < 10) : (decDigitChar d).toNat = 48 + d := by
  interval_cases d <;> rfl

theorem decVal_append_digit (l : List Char) (c : Char) :
    decVal (l ++ [c]) = 10 * decVal l + (c.toNat - 48) := by
  unfold decVal
  rw [List.foldl_append]
  rfl

theorem decVal_toDecimalAux : ∀ (fuel n : Nat), n < fuel →
    decVal (toDecimalAux fuel n) = n := by
  intro fuel
  induction fuel with
  | zero => intro n h; omega
  | succ f ih =>
    intro n h
    rw [toDecimalAux]
    by_cases h10 : n < 10
    · rw [if_pos h10]
      have h48 := decDigitChar_toNat n h10
      unfold decVal
      simp only [List.foldl_cons, List.foldl_nil, h48]
      omega
    · rw [if_neg h10]
      rw [decVal_append_digit]
      have hdiv : n / 10 < f := by
        have h1 : n / 10 < n := Nat.div_lt_self (by omega) (by omega)
        omega
      rw [ih (n / 10) hdiv]
      have hm : n % 10 < 10 := Nat.mod_lt _ (by omega)
      rw [decDigitChar_toNat _ hm]
      omega

theorem natDecStr_inj {m n : Nat} (h : natDecStr m = natDecStr n) : m = n := by
  have hd : toDecimalAux (m + 1) m = toDecimalAux (n + 1) n := congrArg String.data h
  have hv := congrArg decVal hd
  rwa [decVal_toDecimalAux _ _ (Nat.lt_succ_self m),
       decVal_toDecimalAux _ _ (Nat.lt_succ_self n)] at hv

theorem candBE_inj (b e : String) {i j : Nat}
    (h : candBE b e (i + 1) = candBE b e (j + 1)) : i = j := by
  have hd := congrArg String.data h
  simp only [candBE, String.data_append, List.append_assoc] at hd
  have h1 := List.append_cancel_left hd
  have h2 := List.append_cancel_left h1
  have h3 := List.append_cancel_right h2
  have h4 : natDecStr (i + 1) = natDecStr (j + 1) := String.ext h3
  have h5 := natDecStr_inj h4
  omega

theorem exists_fresh_candidate (fs : FS) (b e : String) :
    ∃ j, 1 ≤ j ∧ j < fs.allPaths.length + 2 ∧ fs.pathExists (candBE b e j) = false := by
  by_contra hno
  push_neg at hno
  have hall : ∀ i : Nat, i < fs.allPaths.length + 1 → candBE b e (i + 1) ∈ fs.allPaths := by
    intro i hi
    have h := hno (i + 1) (by omega) (by omega)
    simpa [FS.pathExists] using h
  have hinj : Function.Injective (fun i : Nat => candBE b e (i + 1)) :=
    fun i j hij => candBE_inj b e hij
  have hsub : (Finset.range (fs.allPaths.length + 1)).image (fun i => candBE b e (i + 1))
      ⊆ fs.allPaths.toFinset := by
    intro x hx
    simp only [Finset.mem_image, Finset.mem_range] at hx
    obtain ⟨i, hi, rfl⟩ := hx
    exact List.mem_toFinset.mpr (hall i hi)
  have hcard := Finset.card_le_card hsub
  rw [Finset.card_image_of_injective _ hinj, Finset.card_range] at hcard
  have hle := fs.allPaths.toFinset_card_le
  omega

theorem next_avail_loop_spec (fs : FS) (b e : String) :
    ∀ (fuel m : Nat),
      (∃ j, m ≤ j ∧ j < m + fuel ∧ fs.pathExists (candBE b e j) = false) →
      ∃ k, m ≤ k
        ∧ next_avail_loop fs b e (candBE b e m) (m + 1) fuel = candBE b e k
        ∧ fs.pathExists (candBE b e k) = false
        ∧ ∀ j, m ≤ j → j < k → fs.pathExists (candBE b e j) = true := by
  intro fuel
  induction fuel with
  | zero =>
    intro m h
    obtain ⟨j, h1, h2, _⟩ := h
    omega
  | succ f ih =>
    intro m hex
    cases hm : fs.pathExists (candBE b e m) with
    | false =>
      refine ⟨m, le_refl m, ?_, hm, fun j h1 h2 => by omega⟩
      simp [next_avail_loop, hm]
    | true =>
      have step : next_avail_loop fs b e (candBE b e m) (m + 1) (f + 1)
          = next_avail_loop fs b e (candBE b e (m + 1)) (m + 2) f := by
        rw [next_avail_loop, if_pos hm]
        rfl
      obtain ⟨j, hj1, hj2, hj3⟩ := hex
      have hjm : j ≠ m := by
        intro hh
        rw [hh, hm] at hj3
        cases hj3
      obtain ⟨k, hk1, hk2, hk3, hk4⟩ := ih (m + 1) ⟨j, by omega, by omega, hj3⟩
      refine ⟨k, by omega, ?_, hk3, ?_⟩
      · rw [step]; exact hk2
      · intro j2 h1 h2
        rcases Nat.lt_or_ge j2 (m + 1) with hlt | hge
        · have hj2m : j2 = m := by omega
          rw [hj2m]; exact hm
        · exact hk4 j2 hge h2

theorem splitext_append (p : String) : (splitext p).1 ++ (splitext p).2 = p := by
  simp only [splitext]
  split_ifs with h1 h2
  · apply String.ext
    show p.data.take _ ++ p.data.drop _ = p.data
    exact List.take_append_drop _ _
  · simp
  · simp

theorem next_available_filename_spec (fs : FS) (proposed : String) :
    ∃ k, next_available_filename fs proposed = candSeq proposed k
      ∧ fs.pathExists (candSeq proposed k) = false
      ∧ ∀ j, j < k → fs.pathExists (candSeq proposed j) = true := by
  obtain ⟨j, hj1, hj2, hj3⟩ :=
    exists_fresh_candidate fs (splitext proposed).1 (splitext proposed).2
  obtain ⟨k, hk1, hk2, hk3, hk4⟩ :=
    next_avail_loop_spec fs (splitext proposed).1 (splitext proposed).2
      (fs.allPaths.length + 2) 0 ⟨j, by omega, by omega, hj3⟩
  have h0 : candBE (splitext proposed).1 (splitext proposed).2 0 = proposed :=
    splitext_append proposed
  rw [h0] at hk2
  exact ⟨k, hk2, hk3, fun j2 hj2b => hk4 j2 (by omega) hj2b⟩

/-! ### Helper lemmas about non-empty resolved names -/

theorem string_append_ne_empty (a b : String) (hb : b ≠ "") : a ++ b ≠ "" := by
  intro h
  apply hb
  have hd := congrArg String.data h
  rw [String.data_append] at hd
  exact String.ext (List.append_eq_nil.mp hd).2

theorem string_append_ne_empty_left (a b : String) (ha : a ≠ "") : a ++ b ≠ "" := by
  intro h
  apply ha
  have hd := congrArg String.data h
  rw [String.data_append] at hd
  exact String.ext (List.append_eq_nil.mp hd).1

theorem path_join_ne_empty (a b : String) (hb : b ≠ "") : path_join a b ≠ "" := by
  unfold path_join
  split_ifs with h1 h2
  · exact hb
  · exact string_append_ne_empty a b hb
  · exact string_append_ne_empty (a ++ "/") b hb

theorem proposed_filename_ne_empty (env : Env) (ext clip_title : String) (io : IOContext) :
    proposed_filename env ext clip_title io ≠ "" := by
  have he : (if ext = "" then ".flv" else ext) ≠ "" := by
    split_ifs with h
    · decide
    · exact h
  have hf : env.sane_filename clip_title io.excludechars
      ++ (if ext = "" then ".flv" else ext) ≠ "" :=
    string_append_ne_empty _ _ he
  cases hd : io.destdir with
  | none => simpa only [proposed_filename, hd] using hf
  | some d =>
    simp only [proposed_filename, hd]
    by_cases h : d = ""
    · rw [if_pos h]; exact hf
    · rw [if_neg h]; exact path_join_ne_empty d _ hf

theorem next_avail_loop_shape (fs : FS) (b e : String) :
    ∀ (fuel : Nat) (f : String) (i : Nat),
      next_avail_loop fs b e f i fuel = f
      ∨ ∃ j, next_avail_loop fs b e f i fuel = b ++ "-" ++ natDecStr j ++ e := by
  intro fuel
  induction fuel with
  | zero => intro f i; left; rfl
  | succ fl ih =>
    intro f i
    cases hm : fs.pathExists f with
    | true =>
      right
      have step : next_avail_loop fs b e f i (fl + 1)
          = next_avail_loop fs b e (b ++ "-" ++ natDecStr i ++ e) (i + 1) fl := by
        simp [next_avail_loop, hm]
      rcases ih (b ++ "-" ++ natDecStr i ++ e) (i + 1) with h | ⟨j, hj⟩
      · exact ⟨i, by rw [step, h]⟩
      · exact ⟨j, by rw [step, hj]⟩
    | false =>
      left
      simp [next_avail_loop, hm]

theorem next_available_filename_ne_empty (fs : FS) (p : String) (hp : p ≠ "") :
    next_available_filename fs p ≠ "" := by
  unfold next_available_filename
  rcases next_avail_loop_shape fs (splitext p).1 (splitext p).2
      (fs.allPaths.length + 2) p 1 with h | ⟨j, hj⟩
  · rw [h]; exact hp
  · rw [hj]
    apply string_append_ne_empty_left
    apply string_append_ne_empty_left
    exact string_append_ne_empty _ _ (by decide)

theorem outputfile_cached (env : Env) (ext F : String) (hne : F ≠ "")
    (clip_title : String) (io : IOContext) (resume : Bool) :
    outputfile_from_clip_title env ext (some F) clip_title io resume = (F, some F) := by
  have hb : (F == "") = false := by
    cases hc : F == "" with
    | false => rfl
    | true => exact absurd (by simpa using hc) hne
  simp [outputfile_from_clip_title, optStrTruthy, hb]

/-- C2 counterexample: a chain of two successfully spawned commands, no
interrupt, head process exits 0 while the second (last) command exits 1
(non-zero); Subprocess.execute nevertheless returns SUCCESS, because it
waits on and translates the exit code of the head process only.  This
refutes the claim that a non-zero exit of the second command always yields
FAILED. -/
theorem claim2_counterexample :
    (Subprocess.execute (RunEvent.completed [0, 1]) [["downloader"], ["muxer"]]).1 = RD.success
    ∧ RD.success ≠ RD.failed
    ∧ ((1 : Int) ≠ 0) := by
  refine ⟨rfl, by decide, by decide⟩

/-- C2 amended: for a chain of two commands that are both spawned
successfully with no interrupt, the result of Subprocess.execute is the
translation of the exit code of the first (head) command: FAILED exactly
when the head exit code is non-zero; the exit code of the second command
does not influence the result. -/
theorem claim2_head_exit_decides (c1 c2 : List String) (e1 e2 : Int) :
    Subprocess.execute (RunEvent.completed [e1, e2]) [c1, c2]
      = (exit_code_to_rd e1, [ExecAction.spawnedAll, ExecAction.waitedHead])
    ∧ ((Subprocess.execute (RunEvent.completed [e1, e2]) [c1, c2]).1 = RD.failed ↔ e1 ≠ 0)
    ∧ (Subprocess.execute (RunEvent.completed [e1, e2]) [c1, c2]).1
        = (Subprocess.execute (RunEvent.completed [e1, 0]) [c1, c2]).1 := by
  refine ⟨rfl, ?_, rfl⟩
  by_cases h : e1 = 0 <;> simp [Subprocess.execute, exit_code_to_rd, h]

/-- Witness for the amended C2: a head exit code of 2 makes the two-command
chain report FAILED. -/
theorem claim2_head_exit_decides_witness :
    (Subprocess.execute (RunEvent.completed [2, 0]) [["downloader"], ["muxer"]]).1 = RD.failed := by
  have h := claim2_head_exit_decides ["downloader"] ["muxer"] 2 0
  exact h.2.1.mpr (by decide)

/-- C5: a KeyboardInterrupt raised while Subprocess.execute waits on the
head process of a non-empty spawned chain makes execute send SIGINT to the
head process, wait for it unless the kill itself raises OSError (which is
swallowed), and return INCOMPLETE in both cases; INCOMPLETE is distinct
from FAILED. -/
theorem claim5_interrupt_incomplete (commands : List (List String)) (killFails : Bool)
    (h : commands ≠ []) :
    Subprocess.execute (RunEvent.interrupted killFails) commands
      = (RD.incomplete,
          [ExecAction.spawnedAll, ExecAction.sentSigintHead]
            ++ (if killFails then [] else [ExecAction.waitedHead]))
    ∧ RD.incomplete ≠ RD.failed := by
  cases commands with
  | nil => exact absurd rfl h
  | cons a l => exact ⟨rfl, by decide⟩

/-- Witness for C5 at a concrete one-command chain, for both outcomes of
the secondary kill. -/
theorem claim5_interrupt_incomplete_witness :
    (Subprocess.execute (RunEvent.interrupted false) [["rtmpdump"]]).1 = RD.incomplete
    ∧ ExecAction.sentSigintHead ∈ (Subprocess.execute (RunEvent.interrupted false) [["rtmpdump"]]).2
    ∧ (Subprocess.execute (RunEvent.interrupted true) [["rtmpdump"]]).1 = RD.incomplete := by
  have h1 := claim5_interrupt_incomplete [["rtmpdump"]] false (by decide)
  have h2 := claim5_interrupt_incomplete [["rtmpdump"]] true (by decide)
  refine ⟨by rw [h1.1], by rw [h1.1]; decide, by rw [h2.1]⟩

/-- C7: an OSError while starting any process of a non-empty chain is
caught by Subprocess.execute, the operating-system error is logged, and the
call returns SUBPROCESS_EXECUTE_FAILED instead of letting the exception
escape. -/
theorem claim7_spawn_failure (commands : List (List String)) (h : commands ≠ []) :
    Subprocess.execute RunEvent.spawnError commands
      = (RD.subprocessExecuteFailed, [ExecAction.loggedError]) := by
  cases commands with
  | nil => exact absurd rfl h
  | cons a l => rfl

/-- Witness for C7 at a concrete chain whose binary does not exist. -/
theorem claim7_spawn_failure_witness :
    Subprocess.execute RunEvent.spawnError [["no-such-binary", "arg"]]
      = (RD.subprocessExecuteFailed, [ExecAction.loggedError]) :=
  claim7_spawn_failure [["no-such-binary", "arg"]] (by decide)

/-- C6: warn_on_unsupported_feature emits exactly one warning per requested
option (resume, proxy, ratelimit, duration) that is absent from the
capability set, each with warning severity and never error severity, and it
is a total function (nothing is raised); supported or unrequested options
produce no message. -/
theorem claim6_capability_warnings (caps : Finset IOCapability) (io : IOContext) :
    ((⟨LogLevel.warning, "Resume not supported on this stream"⟩ : LogMsg)
        ∈ warn_on_unsupported_feature caps io
      ↔ (io.resume = true ∧ IOCapability.resume ∉ caps))
    ∧ ((⟨LogLevel.warning, "Proxy not supported on this stream. Trying to continue anyway"⟩ : LogMsg)
        ∈ warn_on_unsupported_feature caps io
      ↔ (optStrTruthy io.proxy = true ∧ IOCapability.proxy ∉ caps))
    ∧ ((⟨LogLevel.warning, "Rate limiting not supported on this stream"⟩ : LogMsg)
        ∈ warn_on_unsupported_feature caps io
      ↔ (optNatTruthy io.download_limits.ratelimit = true ∧ IOCapability.ratelimit ∉ caps))
    ∧ ((⟨LogLevel.warning, "--duration will be ignored on this stream"⟩ : LogMsg)
        ∈ warn_on_unsupported_feature caps io
      ↔ (optNatTruthy io.download_limits.duration = true ∧ IOCapability.duration ∉ caps))
    ∧ (∀ m ∈ warn_on_unsupported_feature caps io, m.level = LogLevel.warning) := by
  unfold warn_on_unsupported_feature
  refine ⟨?_, ?_, ?_, ?_, ?_⟩ <;> split_ifs <;> simp_all

/-- Witness for C4: idempotence and the expected output at the concrete
input of the claim. -/
theorem claim4_parse_backends_witness :
    parse_backends (parse_backends ["wget", "bogus", "ffmpeg", "wget"])
      = parse_backends ["wget", "bogus", "ffmpeg", "wget"]
    ∧ parse_backends ["wget", "bogus", "ffmpeg", "wget"] = ["wget", "ffmpeg"] :=
  ⟨claim4_parse_backends.2.2.2.1 ["wget", "bogus", "ffmpeg", "wget"],
   claim4_parse_backends.2.2.2.2⟩

/-- Witness for C6: on a capability set without RESUME and an io requesting
resume, the resume warning is emitted and every emitted record is a
warning. -/
theorem claim6_capability_warnings_witness :
    (⟨LogLevel.warning, "Resume not supported on this stream"⟩ : LogMsg)
      ∈ warn_on_unsupported_feature hlsCaps ioResume
    ∧ ∀ m ∈ warn_on_unsupported_feature hlsCaps ioResume, m.level = LogLevel.warning := by
  have h := claim6_capability_warnings hlsCaps ioResume
  exact ⟨h.1.mpr ⟨rfl, by decide⟩, h.2.2.2.2⟩

/-- C10: for the segment-playlist backend (force_extension false), an
explicit non-empty user filename gets the variant extension appended
exactly when it contains no dot at all; a filename with a dot anywhere is
returned unchanged even when its suffix differs from the variant extension,
and a dot-free filename receives the literal .flv when the variant declares
no extension. -/
theorem claim10_hls_append_ext (env : Env) (b : HLSBackend) (cache : Option String)
    (clip_title f : String) (io : IOContext)
    (hof : io.outputfilename = some f) (hne : f ≠ "") :
    (HLSBackend.output_filename env b cache clip_title io).1
      = if '.' ∈ f.data then f
        else f ++ (if b.ext = "" then ".flv" else b.ext) := by
  unfold HLSBackend.output_filename construct_output_filename
  rw [hof]
  simp [optStrTruthy, hne, append_ext_if_missing]

/-- Witness for C10: a mismatched-suffix name is returned unchanged, and a
dot-free name on an extensionless variant receives .flv. -/
theorem claim10_hls_append_ext_witness :
    (HLSBackend.output_filename envOut hlsSample none "Clip" ioDotName).1 = "movie.mkv"
    ∧ (HLSBackend.output_filename envOut hlsNoExt none "Clip" ioPlainName).1 = "audio.flv" := by
  have h1 := claim10_hls_append_ext envOut hlsSample none "Clip" "movie.mkv" ioDotName rfl (by decide)
  have h2 := claim10_hls_append_ext envOut hlsNoExt none "Clip" "audio" ioPlainName rfl (by decide)
  exact ⟨h1.trans (by decide), h2.trans (by decide)⟩

/-- C1 counterexample: the resolved output file exists as a regular file
and no fragment file matches the flavor pattern, but io.resume is not set;
HDSBackend.save_stream does invoke the external downloader and reports its
(failing) result instead of returning SUCCESS without invocation.  This
refutes the claim, which omits the io.resume condition of line 345. -/
theorem claim1_counterexample :
    envOut.fs.isfile (HDSBackend.output_filename envOut hdsSample none "Clip" ioExplicitOut).1 = true
    ∧ fragments_exist envOut.fs hdsSample.flavor_id = false
    ∧ ioExplicitOut.resume = false
    ∧ (HDSBackend.save_stream envOut hdsSample none "Clip" ioExplicitOut).1 = RD.failed
    ∧ (HDSBackend.save_stream envOut hdsSample none "Clip" ioExplicitOut).2.1
        = [Action.execExternal [["php", "AdobeHDS.php", "--manifest",
            "http://example/manifest.f4m", "--delete", "--outfile", "out.mp4"]]]
    ∧ RD.failed ≠ RD.success := by
  refine ⟨rfl, rfl, rfl, rfl, rfl, by decide⟩

/-- C1 amended: when io.resume is set, the resolved output name is not the
stdout marker, that name exists as a regular file, and no fragment file
matches the flavor pattern, HDSBackend.save_stream returns SUCCESS without
invoking the external download tool. -/
theorem claim1_resume_skip_amended (env : Env) (b : HDSBackend) (clip_title : String)
    (io : IOContext)
    (hres : io.resume = true)
    (hdash : (HDSBackend.output_filename env b none clip_title io).1 ≠ "-")
    (hfile : env.fs.isfile (HDSBackend.output_filename env b none clip_title io).1 = true)
    (hfrag : fragments_exist env.fs b.flavor_id = false) :
    (HDSBackend.save_stream env b none clip_title io).1 = RD.success
    ∧ (HDSBackend.save_stream env b none clip_title io).2.1 = [] := by
  unfold HDSBackend.save_stream
  rw [if_pos ⟨hres, hdash, hfile, hfrag⟩]
  exact ⟨rfl, rfl⟩

/-- Witness for the amended C1: with resume requested, an existing complete
output file and a fragment-free working directory, save_stream reports
SUCCESS and performs no external invocation. -/
theorem claim1_resume_skip_amended_witness :
    (HDSBackend.save_stream envOut hdsSample none "Clip" ioExplicitOutResume).1 = RD.success
    ∧ (HDSBackend.save_stream envOut hdsSample none "Clip" ioExplicitOutResume).2.1 = [] :=
  claim1_resume_skip_amended envOut hdsSample "Clip" ioExplicitOutResume rfl (by decide) rfl rfl

/-- C8: for the segmented-download backend, the reported result is always
exactly the external result (no exception can change it); smallness of the
resolved output file is equivalent to an existing size below 1024 bytes; on
a resume against such a small file, the file is deleted before the external
resume command (carrying the -e flag) is executed; in every other case (the
file is missing, the size check fails, or the file is large enough) no
deletion happens and the external command is still executed. -/
theorem claim8_rtmp_small_resume (env : Env) (b : RTMPBackend) (clip_title : String)
    (io : IOContext) :
    (RTMPBackend.save_stream env b none clip_title io).1 = env.extResult
    ∧ (is_small_file env.fs (RTMPBackend.output_filename env none clip_title io).1 = true
        ↔ ∃ n, env.fs.getsize (RTMPBackend.output_filename env none clip_title io).1 = some n
            ∧ n < 1024)
    ∧ (io.resume = true →
        is_small_file env.fs (RTMPBackend.output_filename env none clip_title io).1 = true →
        (RTMPBackend.save_stream env b none clip_title io).2.1
          = [Action.removeFile (RTMPBackend.output_filename env none clip_title io).1,
             Action.execExternal
               [(RTMPBackend.build_args env b
                   (RTMPBackend.output_filename env none clip_title io).2 clip_title io).1]]
        ∧ "-e" ∈ (RTMPBackend.build_args env b
            (RTMPBackend.output_filename env none clip_title io).2 clip_title io).1)
    ∧ (¬(io.resume = true ∧
          is_small_file env.fs (RTMPBackend.output_filename env none clip_title io).1 = true) →
        (RTMPBackend.save_stream env b none clip_title io).2.1
          = [Action.execExternal
              [(RTMPBackend.build_args env b
                  (RTMPBackend.output_filename env none clip_title io).2 clip_title io).1]]) := by
  refine ⟨rfl, ?_, ?_, ?_⟩
  · unfold is_small_file
    cases h : env.fs.getsize (RTMPBackend.output_filename env none clip_title io).1 <;> simp
  · intro hres hsmall
    constructor
    · dsimp only [RTMPBackend.save_stream]
      rw [if_pos ⟨hres, hsmall⟩]
      rfl
    · dsimp only [RTMPBackend.build_args]
      rw [hres]
      simp
  · intro hneg
    dsimp only [RTMPBackend.save_stream]
    rw [if_neg hneg]
    rfl

/-- Witness for C8: a resume against a 500 byte t.flv removes the file and
then runs rtmpdump with the resume flag; the reported result is the
external result. -/
theorem claim8_rtmp_small_resume_witness :
    (RTMPBackend.save_stream envSmall rtmpSample none "t" ioResume).1 = RD.success
    ∧ (RTMPBackend.save_stream envSmall rtmpSample none "t" ioResume).2.1
        = [Action.removeFile "t.flv",
           Action.execExternal [["rtmpdump", "-r", "rtmp://example/x", "-o", "t.flv", "-e"]]] := by
  have h := claim8_rtmp_small_resume envSmall rtmpSample "t" ioResume
  have h3 := h.2.2.1 rfl (by decide)
  exact ⟨h.1, h3.1.trans (by decide)⟩

/-- C3: with no truthy explicit output filename and a fresh (empty) name
cache, the resolved name when the attempt is not a resume on a
RESUME-capable backend is the first non-existing path in the candidate
sequence (the proposed title-derived name, then basename-1ext,
basename-2ext, ...; candidate 0 of the sequence is exactly the proposed
name); when io.resume is set and the capability set contains RESUME, the
proposed path is returned verbatim with no collision-avoidance renaming. -/
theorem claim3_collision_avoidance (env : Env) (ext : String)
    (caps : Finset IOCapability) (clip_title : String) (io : IOContext)
    (force_extension : Bool)
    (hno : optStrTruthy io.outputfilename = false) :
    (candSeq (proposed_filename env ext clip_title io) 0
        = proposed_filename env ext clip_title io)
    ∧ (¬(io.resume = true ∧ IOCapability.resume ∈ caps) →
        ∃ k, (construct_output_filename env ext caps none clip_title io force_extension).1
              = candSeq (proposed_filename env ext clip_title io) k
          ∧ env.fs.pathExists (candSeq (proposed_filename env ext clip_title io) k) = false
          ∧ ∀ j, j < k →
              env.fs.pathExists (candSeq (proposed_filename env ext clip_title io) j) = true)
    ∧ ((io.resume = true ∧ IOCapability.resume ∈ caps) →
        (construct_output_filename env ext caps none clip_title io force_extension).1
          = proposed_filename env ext clip_title io) := by
  have hbranch : construct_output_filename env ext caps none clip_title io force_extension
      = outputfile_from_clip_title env ext none clip_title io
          (io.resume && decide (IOCapability.resume ∈ caps)) := by
    dsimp only [construct_output_filename]
    rw [hno]
    rfl
  refine ⟨splitext_append _, ?_, ?_⟩
  · intro hnr
    have hres : (io.resume && decide (IOCapability.resume ∈ caps)) = false := by
      cases hio : io.resume with
      | false => rfl
      | true =>
        cases hcap : decide (IOCapability.resume ∈ caps) with
        | false => rfl
        | true => exact absurd ⟨hio, of_decide_eq_true hcap⟩ hnr
    rw [hbranch, hres]
    obtain ⟨k, hk1, hk2, hk3⟩ :=
      next_available_filename_spec env.fs (proposed_filename env ext clip_title io)
    exact ⟨k, hk1, hk2, hk3⟩
  · intro hr
    have hres : (io.resume && decide (IOCapability.resume ∈ caps)) = true := by
      rw [hr.1, decide_eq_true hr.2]
      rfl
    rw [hbranch, hres]
    rfl

/-- Witness for C3 on a filesystem where the proposed name and its first
alternative are both taken: the non-resume call lands on a fresh candidate,
the resume call on a RESUME-capable set returns the proposed name, and the
concrete resolved name is the third candidate t-2.flv. -/
theorem claim3_collision_avoidance_witness :
    (∃ k, (construct_output_filename envTaken ".flv" ∅ none "t" ioPlain true).1
          = candSeq (proposed_filename envTaken ".flv" "t" ioPlain) k
      ∧ envTaken.fs.pathExists (candSeq (proposed_filename envTaken ".flv" "t" ioPlain) k) = false
      ∧ ∀ j, j < k →
          envTaken.fs.pathExists (candSeq (proposed_filename envTaken ".flv" "t" ioPlain) j) = true)
    ∧ (construct_output_filename envTaken ".flv" rtmpCaps none "t" ioResume true).1
        = proposed_filename envTaken ".flv" "t" ioResume
    ∧ (construct_output_filename envTaken ".flv" ∅ none "t" ioPlain true).1 = "t-2.flv" := by
  refine ⟨?_, ?_, by decide⟩
  · exact (claim3_collision_avoidance envTaken ".flv" ∅ "t" ioPlain true rfl).2.1 (by decide)
  · exact (claim3_collision_avoidance envTaken ".flv" rtmpCaps "t" ioResume true rfl).2.2
      ⟨rfl, by decide⟩

/-- C9: once outputfile_from_clip_title has computed a path starting from an
empty cache, a later query through the cache it produced returns exactly the
same path and the same cache, whatever the filesystem, sanitizer, extension,
clip title, io object or resume flag of the later call. -/
theorem claim9_cached_name_stable (env1 env2 : Env) (ext1 ext2 : String)
    (clip_title1 clip_title2 : String) (io1 io2 : IOContext)
    (resume1 resume2 : Bool) :
    outputfile_from_clip_title env2 ext2
        (outputfile_from_clip_title env1 ext1 none clip_title1 io1 resume1).2
        clip_title2 io2 resume2
      = outputfile_from_clip_title env1 ext1 none clip_title1 io1 resume1 := by
  have h1 : outputfile_from_clip_title env1 ext1 none clip_title1 io1 resume1
      = (if resume1 then proposed_filename env1 ext1 clip_title1 io1
          else next_available_filename env1.fs (proposed_filename env1 ext1 clip_title1 io1),
         some (if resume1 then proposed_filename env1 ext1 clip_title1 io1
          else next_available_filename env1.fs (proposed_filename env1 ext1 clip_title1 io1))) :=
    rfl
  have hne : (if resume1 then proposed_filename env1 ext1 clip_title1 io1
      else next_available_filename env1.fs (proposed_filename env1 ext1 clip_title1 io1)) ≠ "" := by
    cases resume1 with
    | true => simpa using proposed_filename_ne_empty env1 ext1 clip_title1 io1
    | false =>
      simpa using next_available_filename_ne_empty env1.fs _
        (proposed_filename_ne_empty env1 ext1 clip_title1 io1)
  rw [h1]
  exact outputfile_cached env2 ext2 _ hne clip_title2 io2 resume2

/-- Witness for C9 at concrete inputs: the second query, with a different
environment, extension, title, io object and resume flag, returns exactly
the first result. -/
theorem claim9_cached_name_stable_witness :
    outputfile_from_clip_title envOut ".mp4"
        (outputfile_from_clip_title envTaken ".flv" none "t" ioPlain false).2
        "other" ioResume true
      = outputfile_from_clip_title envTaken ".flv" none "t" ioPlain false :=
  claim9_cached_name_stable envTaken envOut ".flv" ".mp4" "t" "other" ioPlain ioResume false true

end Yledl
